import Mathlib

/-!
# Verification of the MyVision guide-generator core

Shallow embedding of the guide-generation pipeline of the
`myvision-guide-generator` repository: prompt construction
(`guide_generator.py`), filename generation and Markdown/Word document
writing (`file_manager.py`), streaming event handling
(`guide_generator.py`), and accessibility-settings validation
(`config.py`).

Strings are modelled as Lean `String`/`List Char`.  The Python functions `str.lower`,
`str.title`, `re` character classes (`\w`, `\s`) and `str.strip` are
modelled at ASCII granularity (the fragment exercised by the program and
its specification); Unicode case tables are outside the model.
-/

namespace MyVision

/-! ## ASCII character model (Python `str` / `re` semantics) -/

/-- ASCII uppercase letter test (`A`-`Z`). -/
def isAsciiUpper (c : Char) : Bool := 'A' ≤ c && c ≤ 'Z'

/-- ASCII lowercase letter test (`a`-`z`). -/
def isAsciiLower (c : Char) : Bool := 'a' ≤ c && c ≤ 'z'

/-- ASCII letter test, the model of being alphabetic for `str.title` and `\w`. -/
def isAsciiAlpha (c : Char) : Bool := isAsciiUpper c || isAsciiLower c

/-- ASCII digit test (`0`-`9`). -/
def isAsciiDigit (c : Char) : Bool := '0' ≤ c && c ≤ '9'

/-- Model of Python `str.lower` on one character (ASCII fragment). -/
def pyLowerChar (c : Char) : Char :=
  if isAsciiUpper c then Char.ofNat (c.toNat + 32) else c

/-- Model of Python `str.upper` on one character (ASCII fragment). -/
def pyUpperChar (c : Char) : Char :=
  if isAsciiLower c then Char.ofNat (c.toNat - 32) else c

/-- Python regex class `\s` (ASCII fragment): space, tab, newline,
vertical tab, form feed, carriage return. -/
def isPySpace (c : Char) : Bool :=
  c = ' ' || c = '\t' || c = '\n' || c = '\x0b' || c = '\x0c' || c = '\r'

/-- Python regex class `\w` (ASCII fragment): letters, digits, underscore. -/
def isPyWord (c : Char) : Bool := isAsciiAlpha c || isAsciiDigit c || c = '_'

/-- A character matched by the regex `[-\s]` in the collapse step of
`_clean_filename`: whitespace or hyphen. -/
def isSepChar (c : Char) : Bool := isPySpace c || c = '-'

/-- Model of Python `str.lower` (ASCII fragment). -/
def pyLower (s : List Char) : List Char := s.map pyLowerChar

/-! ## List-of-characters utilities shared by the embedded functions -/

/-- Remove leading characters satisfying `p` — Python `lstrip`. -/
def lstripP (p : Char → Bool) (s : List Char) : List Char := s.dropWhile p

/-- Remove trailing characters satisfying `p` — Python `rstrip`. -/
def rstripP (p : Char → Bool) (s : List Char) : List Char :=
  (s.reverse.dropWhile p).reverse

/-- Remove characters satisfying `p` from both ends — Python `strip`. -/
def stripP (p : Char → Bool) (s : List Char) : List Char :=
  rstripP p (lstripP p s)

/-! ## `FileManager._clean_filename` (file_manager.py lines 238-261) -/

/-- Step 2 of `_clean_filename`: `re.sub` with pattern `[^\w\s-]` and empty replacement — delete
every character that is not a word character, whitespace, or hyphen. -/
def removeSpecial (s : List Char) : List Char :=
  s.filter (fun c => isPyWord c || isPySpace c || c = '-')

/-- Step 3 of `_clean_filename`: `re.sub(r'[-\s]+', '_', text)` — replace
every maximal run of whitespace/hyphen characters by one underscore.
The boolean argument records whether the previous character was part of
such a run (so the run yields a single `'_'`). -/
def collapseSepsAux : Bool → List Char → List Char
  | _, [] => []
  | inRun, c :: t =>
    if isSepChar c then
      if inRun then collapseSepsAux true t else '_' :: collapseSepsAux true t
    else c :: collapseSepsAux false t

/-- The collapse step `re.sub` with pattern `[-\s]+` and replacement `_`. -/
def collapseSeps (s : List Char) : List Char := collapseSepsAux false s

/-- Embedding of `_clean_filename` up to (and excluding) the length truncation:
lowercase, delete specials, collapse separator runs to `'_'`, and
`strip('_')`. -/
def cleanStem (s : List Char) : List Char :=
  stripP (· = '_') (collapseSeps (removeSpecial (pyLower s)))

/-- Embedding of `FileManager._clean_filename`: the full pipeline including the
50-character truncation `text[:50].rstrip('_')`. -/
def cleanFilenameL (s : List Char) : List Char :=
  let t := cleanStem s
  if 50 < t.length then rstripP (· = '_') (t.take 50) else t

/-- Embedding of `FileManager._clean_filename` on `String`s. -/
def cleanFilename (s : String) : String := ⟨cleanFilenameL s.data⟩

/-! ## Python `str.title` (used as `topic.title()` in both prompt builders) -/

/-- Model of Python `str.title` (ASCII fragment): a letter that follows a
letter is lowercased, a letter that follows a non-letter (or starts the
string) is uppercased; other characters pass through and reset the word.
The boolean argument records whether the previous character was a letter. -/
def pyTitleAux : Bool → List Char → List Char
  | _, [] => []
  | prevAlpha, c :: t =>
    if isAsciiAlpha c then
      (if prevAlpha then pyLowerChar c else pyUpperChar c) :: pyTitleAux true t
    else c :: pyTitleAux false t

/-- Python `str.title` on `String`s. -/
def pyTitle (s : String) : String := ⟨pyTitleAux false s.data⟩

/-- Substring test on character lists: `pat` occurs contiguously in the
second argument. -/
def isInfixOfL (pat : List Char) : List Char → Bool
  | [] => pat.isEmpty
  | c :: t => pat.isPrefixOf (c :: t) || isInfixOfL pat t

/-- Substring test: `pat` occurs contiguously inside `hay`. -/
def containsSubstr (hay pat : String) : Bool := isInfixOfL pat.data hay.data

/-! ## Prompt construction
(`GuideGenerator.generate_topic_guide` lines 190-222 and
`GuideGenerator.stream_topic_guide` lines 555-587 of guide_generator.py
build byte-identical f-strings; `basePrompt` embeds that common text,
including the 8-space indentation of every line of the triple-quoted
literal). -/

/-- The six fixed section headers of the guide outline. -/
def hdrLearningObjectives : String := "## Learning Objectives"

/-- Second section header. -/
def hdrPrerequisites : String := "## Prerequisites"

/-- Third section header. -/
def hdrStepByStep : String := "## Step-by-Step Instructions"

/-- Fourth section header. -/
def hdrPracticeActivities : String := "## Practice Activities"

/-- Fifth section header. -/
def hdrTroubleshooting : String := "## Troubleshooting"

/-- Sixth section header. -/
def hdrNextSteps : String := "## Next Steps"

/-- The title line of the prompt: `        # {topic.title()} - Learning Guide`
(the interpolation applies Python `str.title` to the topic). -/
def promptTitleLine (topic : String) : String :=
  "        # " ++ pyTitle topic ++ " - Learning Guide"

/-- The static tail of the prompt following the title line: the six
section headers with their descriptions, then the style guidelines,
ending with the 8 spaces that precede the closing quotes. -/
def promptSections : String :=
  "        \n        " ++ hdrLearningObjectives ++
  "\n        What the learner will accomplish by completing this guide\n        \n        " ++
  hdrPrerequisites ++
  "\n        What they should know or have set up before starting\n        \n        " ++
  hdrStepByStep ++
  "\n        Detailed, numbered steps with clear explanations\n        Include specific gesture commands, keyboard shortcuts, or menu paths\n        \n        " ++
  hdrPracticeActivities ++
  "\n        Hands-on exercises to reinforce the learning\n        \n        " ++
  hdrTroubleshooting ++
  "\n        Common issues and how to resolve them\n        \n        " ++
  hdrNextSteps ++
  "\n        What to learn next to build on this foundation\n        \n        Guidelines:\n        - Use encouraging, supportive language throughout\n        - Explain WHY steps are important, not just HOW\n        - Include specific examples and scenarios\n        - Consider the emotional journey of learning new technology\n        - Use active voice and clear instructions\n        "

/-- The literal prefix of the prompt, up to the interpolated topic. -/
def promptRequestIntro : String :=
  "\n        Create a comprehensive learning guide for: "

/-- The prompt f-string shared by `generate_topic_guide` and
`stream_topic_guide` (before the optional chain-of-thought block). -/
def basePrompt (topic : String) : String :=
  promptRequestIntro ++ topic ++
    "\n        \n        Structure your guide with these sections:\n        \n" ++
    promptTitleLine topic ++ "\n" ++ promptSections

/-! ## Chain-of-thought instruction blocks
(guide_generator.py lines 238-281, repeated verbatim at 603-646). -/

/-- The `"detailed"` thinking-instruction block (16-space indentation of
the source literal preserved). -/
def thinkingDetailed : String :=
  "\n                \n                IMPORTANT: Show your complete thought process as you work.\n                \n                Think out loud about:\n                - How you analyze this topic and its complexity\n                - What you know about the target audience\n                - Your pedagogical decisions and why you make them\n                - How you structure content for maximum learning\n                - What examples and activities would be most effective\n                \n                Format your thinking clearly, then create the guide.\n                "

/-- The `"expert"` thinking-instruction block (the `accessibility
considerations` line carries two trailing spaces in the source). -/
def thinkingExpert : String :=
  "\n                \n                IMPORTANT: Demonstrate expert-level educational reasoning.\n                \n                Show your complete analysis including:\n                - Topic complexity assessment and prerequisite mapping\n                - Learner persona analysis and accessibility considerations  \n                - Cognitive load management and chunking strategies\n                - Multi-modal learning approach selection\n                - Common failure points and mitigation strategies\n                - Assessment and practice activity design rationale\n                \n                Provide deep insight into your educational decision-making process.\n                "

/-- The fallback (`basic`) thinking-instruction block, used for
`"basic"` and for every unrecognized detail level. -/
def thinkingBasic : String :=
  "\n                \n                IMPORTANT: Think out loud as you create this guide.\n                \n                Show me your reasoning about:\n                - What makes this topic challenging for learners\n                - How you\x27ll structure the content\n                - Why you choose specific examples\n                \n                Then create the guide based on your analysis.\n                "

/-- Dispatch on `config.thinking_detail_level`: `if level == "detailed"
... elif level == "expert" ... else` basic. -/
def thinkingInstruction (level : String) : String :=
  if level = "detailed" then thinkingDetailed
  else if level = "expert" then thinkingExpert
  else thinkingBasic

/-- The complete prompt: the base prompt, with the thinking-instruction
block appended exactly when `config.stream_thinking_process` is set. -/
def buildPrompt (topic : String) (streamThinking : Bool) (level : String) : String :=
  if streamThinking then basePrompt topic ++ thinkingInstruction level
  else basePrompt topic

/-! ## Line splitting and joining (used to state the Markdown round trip) -/

/-- Split a character list at every newline.  Always returns at least one
(possibly empty) line; `n` newlines produce `n + 1` lines. -/
def splitLinesL : List Char → List (List Char)
  | [] => [[]]
  | c :: t =>
    if c = '\n' then [] :: splitLinesL t
    else
      match splitLinesL t with
      | [] => [[c]]
      | l :: ls => (c :: l) :: ls

/-- Join lines with single newlines; the left inverse of `splitLinesL`. -/
def joinLinesL : List (List Char) → List Char
  | [] => []
  | [l] => l
  | l :: ls => l ++ '\n' :: joinLinesL ls

/-- The lines of a string. -/
def splitLinesS (s : String) : List String := (splitLinesL s.data).map fun l => ⟨l⟩

/-- Model of Python `"\n".join(lines)`. -/
def joinNL : List String → String
  | [] => ""
  | [l] => l
  | l :: ls => l ++ "\n" ++ joinNL ls

/-! ## Markdown guide saving
(`FileManager.save_markdown_guide` lines 264-299 and
`FileManager._create_metadata_header` lines 336-351 of file_manager.py).
The file system is outside the model: `saveMarkdownGuide` denotes the
exact text written to the output file. -/

/-- The `key: value` lines appended for each metadata entry whose value
is not `None`, in mapping order (`for key, value in metadata.items()`). -/
def metadataEntryLines (metadata : List (String × Option String)) : List String :=
  metadata.filterMap fun kv => kv.2.map fun v => kv.1 ++ ": " ++ v

/-- Embedding of `FileManager._create_metadata_header`: `"---"`, one line per
non-null entry, `"---"`, joined with newlines. -/
def createMetadataHeader (metadata : List (String × Option String)) : String :=
  joinNL (["---"] ++ metadataEntryLines metadata ++ ["---"])

/-- Embedding of `FileManager.save_markdown_guide`: the full file content
`f"{metadata_header}\n\n{content}"`. -/
def saveMarkdownGuide (content : String) (metadata : List (String × Option String)) : String :=
  createMetadataHeader metadata ++ "\n\n" ++ content

/-- Reading the saved file back, per the spec sentence
`---\nkey: value\n...\n---\n\n<content>`: the first line must be `---`,
the header block is every line up to the next `---`, a blank line must
follow, and the rest joined with newlines is the content.  This is the
observation function for the round-trip claim, defined from the spec
format (the repository itself never re-reads guides). -/
def parseSavedGuide (s : String) : Option (List String × String) :=
  match splitLinesS s with
  | [] => none
  | first :: rest =>
    if first = "---" then
      match rest.dropWhile (· != "---") with
      | close :: blank :: contentLines =>
        if close = "---" && blank = "" then
          some (rest.takeWhile (· != "---"), joinNL contentLines)
        else none
      | _ => none
    else none

/-! ## Filename generation
(`FileManager.generate_filename` lines 132-235 of file_manager.py).
`datetime.now().strftime("%Y%m%d_%H%M%S")` is nondeterministic input,
passed here as the `timestamp` parameter. -/

/-- Embedding of `FileManager.generate_filename`:
`f"{clean_title}_{guide_type}_guide_{timestamp}.{extension}"` with
extension `md` for markdown and `docx` otherwise. -/
def generateFilename (title guideType formatType timestamp : String) : String :=
  let cleanTitle := cleanFilename title
  let extension := if formatType = "markdown" then "md" else "docx"
  cleanTitle ++ "_" ++ guideType ++ "_guide_" ++ timestamp ++ "." ++ extension

/-! ## Batch guide generation result and the CLI markdown flow
(`GuideGenerator.generate_topic_guide` lines 400-447 of
guide_generator.py; `CLIManager.generate_topic_guide` lines 329-444 of
cli.py).  The remote model call is external: the generated text is the
`content` parameter, `datetime.now().isoformat()` is the `generatedIso`
parameter. -/

/-- The structured result returned by `generate_topic_guide`. -/
structure GuideResult where
  content : String
  title : String
  metadata : List (String × Option String)
  deriving DecidableEq, Repr

/-- The value `generate_topic_guide` returns once the model responded
with `content`: title `f"{topic.title()} - Learning Guide"` and the
metadata mapping in insertion order. -/
def generateTopicGuideResult (topic content generatedIso : String) : GuideResult :=
  { content := content
    title := pyTitle topic ++ " - Learning Guide"
    metadata :=
      [("type", some "Learning Guide"),
       ("title", some (pyTitle topic ++ " - Learning Guide")),
       ("topic", some topic),
       ("generated", some generatedIso),
       ("client_name", none)] }

/-- The CLI flow for a topic guide in markdown format: generate, build
the filename with `guide_type="learning"`, save.  Returns the filename
and the saved file content. -/
def cliTopicGuideMarkdown (topic content generatedIso timestamp : String) :
    String × String :=
  let guideData := generateTopicGuideResult topic content generatedIso
  let filename := generateFilename guideData.title "learning" "markdown" timestamp
  (filename, saveMarkdownGuide guideData.content guideData.metadata)

/-! ## Streaming guide generation
(`GuideGenerator.stream_topic_guide` lines 675-734 of guide_generator.py).
The transport is external: the ordered event sequence is a parameter.
Events are duck-typed in the source (`hasattr` probes); `none` in the
corresponding field models a missing attribute. -/

/-- A streaming event: `type` models `event.type` when present, `delta`
models `event.delta` (outer) carrying `event.delta.text` (inner) when
present. -/
structure StreamEvent where
  type : Option String
  delta : Option (Option String)
  deriving DecidableEq, Repr

/-- The text chunk an event contributes: present exactly when the event
has a `type` equal to `"content_block_delta"` and a `delta` with a
`text` attribute; every other event is skipped. -/
def deltaText (e : StreamEvent) : Option String :=
  match e.type with
  | some t =>
    if t = "content_block_delta" then
      match e.delta with
      | some (some txt) => some txt
      | _ => none
    else none
  | none => none

/-- Python `str.strip()` (ASCII whitespace fragment). -/
def pyStripWs (s : String) : String := ⟨stripP isPySpace s.data⟩

/-- Embedding of `GuideGenerator.stream_topic_guide` over a finite event sequence:
yields the delta chunks in order; if the accumulated content is empty
after stripping, the empty-stream exception is raised and rewrapped by
the surrounding handler into
`f"Failed to stream guide generation: {str(e)}"`. -/
def streamTopicGuide (events : List StreamEvent) : Except String (List String) :=
  let chunks := events.filterMap deltaText
  let accumulated := chunks.foldl (· ++ ·) ""
  if pyStripWs accumulated = "" then
    .error "Failed to stream guide generation: No content received from streaming API"
  else .ok chunks

/-! ## Configuration and accessibility validation
(`Config._load_accessibility_settings` lines 285-315 and
`Config.validate_accessibility_settings` lines 342-414 of config.py).
Font sizes are Python `int`s; `line_spacing` (a Python float compared
against the two-decimal constant `1.15`) is modelled exactly in
hundredths, so the default `1.15` is `115`. -/

/-- The configuration fields read by document formatting and
validation. -/
structure AppConfig where
  bodyFontSize : Int
  heading1FontSize : Int
  heading2FontSize : Int
  heading3FontSize : Int
  accessibleFont : String
  lineSpacingHundredths : Int
  paragraphSpacing : Int
  highContrastMode : Bool
  organizationName : String
  contactEmail : String
  website : String
  deriving DecidableEq, Repr

/-- The configuration produced by the default environment (no override
variables set). -/
def defaultConfig : AppConfig :=
  { bodyFontSize := 18
    heading1FontSize := 24
    heading2FontSize := 22
    heading3FontSize := 20
    accessibleFont := "Arial"
    lineSpacingHundredths := 115
    paragraphSpacing := 6
    highContrastMode := false
    organizationName := "MyVision Oxfordshire"
    contactEmail := "info@myvision.org.uk"
    website := "www.myvision.org.uk" }

/-- Rendering of the line-spacing value as Python `str` renders the
float (restricted to at most two decimals, e.g. `115 ↦ "1.15"`,
`150 ↦ "1.5"`, `100 ↦ "1.0"`). -/
def displayHundredths (h : Int) : String :=
  let ip := h / 100
  let fp := (h % 100).natAbs
  if fp = 0 then toString ip ++ ".0"
  else if fp % 10 = 0 then toString ip ++ "." ++ toString (fp / 10)
  else if fp < 10 then toString ip ++ ".0" ++ toString fp
  else toString ip ++ "." ++ toString fp

/-- The fonts the validator recognizes as accessible. -/
def accessibleFonts : List String :=
  ["Arial", "Verdana", "Tahoma", "Calibri", "Helvetica", "Open Sans"]

/-- The recommendation emitted when the body font size is below the
large-print minimum. -/
def bodyFontTooSmallMsg (size : Int) : String :=
  "❌ Body font size (" ++ toString size ++ "pt) below large print minimum (18pt)"

/-- Embedding of `Config.validate_accessibility_settings`: sequentially appends
recommendations and conjoins the standards flag, mirroring the source
checks in order. -/
def validateAccessibilitySettings (c : AppConfig) : Bool × List String :=
  let recommendations : List String := []
  let meetsStandards := true
  let (recommendations, meetsStandards) :=
    if c.bodyFontSize < 18 then
      (recommendations ++ [bodyFontTooSmallMsg c.bodyFontSize], false)
    else
      (recommendations ++
        ["✅ Large print enabled (" ++ toString c.bodyFontSize ++ "pt body text)"],
       meetsStandards)
  let (recommendations, meetsStandards) :=
    if c.heading1FontSize < 20 then
      (recommendations ++
        ["❌ H1 font size (" ++ toString c.heading1FontSize ++ "pt) should be at least 20pt"],
       false)
    else (recommendations, meetsStandards)
  let recommendations :=
    if accessibleFonts.contains c.accessibleFont then
      recommendations ++ ["✅ Accessible font selected (" ++ c.accessibleFont ++ ")"]
    else
      recommendations ++
        ["⚠️  Font \x27" ++ c.accessibleFont ++ "\x27 may not be optimal for accessibility",
         "    Recommended fonts: " ++ String.intercalate ", " accessibleFonts]
  let (recommendations, meetsStandards) :=
    if c.lineSpacingHundredths < 115 then
      (recommendations ++
        ["❌ Line spacing (" ++ displayHundredths c.lineSpacingHundredths ++
          ") below recommended minimum (1.15)"],
       false)
    else
      (recommendations ++
        ["✅ Good line spacing (" ++ displayHundredths c.lineSpacingHundredths ++ ")"],
       meetsStandards)
  let (recommendations, meetsStandards) :=
    if c.heading1FontSize ≤ c.heading2FontSize then
      (recommendations ++ ["❌ H1 should be larger than H2 for clear hierarchy"], false)
    else (recommendations, meetsStandards)
  let (recommendations, meetsStandards) :=
    if c.heading2FontSize ≤ c.heading3FontSize then
      (recommendations ++ ["❌ H2 should be larger than H3 for clear hierarchy"], false)
    else (recommendations, meetsStandards)
  let recommendations :=
    if c.highContrastMode then
      recommendations ++ ["✅ High contrast mode enabled for maximum visibility"]
    else recommendations
  (meetsStandards, recommendations)

/-! ## Styled Word document
(`FileManager._create_word_document` lines 354-401,
`_add_accessible_document_header` 465-546, `_add_logo_to_header`
548-590, `_add_accessible_content_to_document` 592-726 and
`_add_accessible_document_footer` 729-791 of file_manager.py).
The document is modelled as the ordered list of block-level elements
python-docx receives; run-level typography (font name, point sizes,
colors, spacing) is style data attached to these blocks and does not
change the block sequence, so it is not part of the model.  Whether the
configured logo file exists and can be inserted is a file-system fact,
passed as the `logoAvailable` flag; `datetime.now().strftime("%B %d, %Y")`
is the `dateStr` parameter. -/

/-- Block-level elements of the generated Word document. -/
inductive DocBlock where
  | logoBlock
  | titleBlock (text : Option String)
  | orgBlock (text : String)
  | dateBlock (text : String)
  | separatorBlock
  | h1Block (text : String)
  | h2Block (text : String)
  | h3Block (text : String)
  | bulletBlock (text : String)
  | numberBlock (text : String)
  | boldSplitBlock (runs : List (String × Bool))
  | paraBlock (text : String)
  | emptyBlock
  | spacerBlock
  | footerSeparatorBlock
  | contactBlock (text : String)
  | accessibilityBlock (text : String)
  deriving DecidableEq, Repr

/-- Embedding of `metadata.get(key)`: the stored value when the key is present
(`None` collapses with absence, as both are falsy at the use sites). -/
def pyGet (metadata : List (String × Option String)) (key : String) : Option String :=
  match metadata.lookup key with
  | some v => v
  | none => none

/-- Embedding of `metadata.get(key, default)`: the stored value (possibly `None`)
when the key is present, otherwise the default. -/
def pyGetD (metadata : List (String × Option String)) (key : String) (dflt : String) :
    Option String :=
  match metadata.lookup key with
  | some v => v
  | none => some dflt

/-- Python truthiness of `metadata.get(key)` at the date-line use site:
a present, non-`None`, non-empty string. -/
def truthyGet (metadata : List (String × Option String)) (key : String) : Option String :=
  match pyGet metadata key with
  | some v => if v = "" then none else some v
  | none => none

/-- Embedding of `FileManager._add_logo_to_header`: the logo paragraph when the
configured logo file is present and insertable, nothing otherwise; the
returned flag mirrors the boolean result. -/
def addLogoToHeader (logoAvailable : Bool) : List DocBlock × Bool :=
  if logoAvailable then ([DocBlock.logoBlock], true) else ([], false)

/-- The `date_text` line of the header: `f"Generated: {date}"`, extended
with technology/device when both are truthy, else with the topic when
truthy. -/
def dateText (metadata : List (String × Option String)) (dateStr : String) : String :=
  let base := "Generated: " ++ dateStr
  match truthyGet metadata "technology", truthyGet metadata "device" with
  | some tech, some dev => base ++ " • " ++ tech ++ " on " ++ dev
  | _, _ =>
    match truthyGet metadata "topic" with
    | some topic => base ++ " • " ++ topic
    | none => base

/-- Embedding of `FileManager._add_accessible_document_header`: optional logo, the
centered title (`metadata.get("title", "Learning Guide")`), the
organization line, the date line and the decorative separator. -/
def addAccessibleDocumentHeader (cfg : AppConfig)
    (metadata : List (String × Option String)) (logoAvailable : Bool)
    (dateStr : String) : List DocBlock :=
  (addLogoToHeader logoAvailable).1 ++
    [DocBlock.titleBlock (pyGetD metadata "title" "Learning Guide"),
     DocBlock.orgBlock cfg.organizationName,
     DocBlock.dateBlock (dateText metadata dateStr),
     DocBlock.separatorBlock]

/-- Does the line start with one of `"1. "` … `"9. "`? -/
def startsNumbered (l : List Char) : Bool :=
  match l with
  | c :: '.' :: ' ' :: _ => '1' ≤ c && c ≤ '9'
  | _ => false

/-- Python `line.split(". ", 1)`: split at the first occurrence of
`". "`, returning the two parts when the separator occurs. -/
def splitFirstDotSpace : List Char → Option (List Char × List Char)
  | '.' :: ' ' :: t => some ([], t)
  | c :: t =>
    match splitFirstDotSpace t with
    | some (a, b) => some (c :: a, b)
    | none => none
  | [] => none

/-- Python `line.split("**")`: split at every (non-overlapping,
leftmost-first) occurrence of `**`.  The first argument accumulates the
current segment in reverse. -/
def splitStarsAux : List Char → List Char → List (List Char)
  | acc, '*' :: '*' :: t => acc.reverse :: splitStarsAux [] t
  | acc, c :: t => splitStarsAux (c :: acc) t
  | acc, [] => [acc.reverse]

/-- Python `line.split("**")`. -/
def splitStars (l : List Char) : List (List Char) := splitStarsAux [] l

/-- The alternately-bold runs of a paragraph containing `**` pairs:
non-empty segments keep their split index parity as the bold flag. -/
def boldRuns (l : List Char) : List (String × Bool) :=
  (splitStars l).enum.filterMap fun ip =>
    if ip.2.isEmpty then none else some (⟨ip.2⟩, ip.1 % 2 = 1)

/-- Translation of one (already `strip()`ed) content line into its
document block, mirroring the `if`/`elif` chain of
`_add_accessible_content_to_document`. -/
def translateLine (l : List Char) : DocBlock :=
  if l.isEmpty then DocBlock.emptyBlock
  else if ['#', ' '].isPrefixOf l then
    DocBlock.h1Block ⟨stripP isPySpace (l.drop 2)⟩
  else if ['#', '#', ' '].isPrefixOf l then
    DocBlock.h2Block ⟨stripP isPySpace (l.drop 3)⟩
  else if ['#', '#', '#', ' '].isPrefixOf l then
    DocBlock.h3Block ⟨stripP isPySpace (l.drop 4)⟩
  else if ['-', ' '].isPrefixOf l || ['*', ' '].isPrefixOf l then
    DocBlock.bulletBlock ⟨l.drop 2⟩
  else if startsNumbered l then
    DocBlock.numberBlock
      (match splitFirstDotSpace l with
       | some (_, rest) => ⟨rest⟩
       | none => ⟨l.drop 3⟩)
  else if isInfixOfL ['*', '*'] l then DocBlock.boldSplitBlock (boldRuns l)
  else DocBlock.paraBlock ⟨l⟩

/-- Embedding of `FileManager._add_accessible_content_to_document`: split the content
on newlines, strip each line, translate line by line. -/
def addAccessibleContentToDocument (content : String) : List DocBlock :=
  (splitLinesL content.data).map fun l => translateLine (stripP isPySpace l)

/-- The contact text of the footer. -/
def footerContactText (cfg : AppConfig) : String :=
  cfg.organizationName ++ "\n" ++ "Email: " ++ cfg.contactEmail ++ "\n" ++
    "Web: " ++ cfg.website

/-- The accessibility statement of the footer. -/
def accessibilityStatement (cfg : AppConfig) : String :=
  "This document has been formatted for accessibility with large print (" ++
    toString cfg.bodyFontSize ++ "pt minimum font size)"

/-- Embedding of `FileManager._add_accessible_document_footer`: spacer, separator,
contact block, accessibility statement. -/
def addAccessibleDocumentFooter (cfg : AppConfig) : List DocBlock :=
  [DocBlock.spacerBlock, DocBlock.footerSeparatorBlock,
   DocBlock.contactBlock (footerContactText cfg),
   DocBlock.accessibilityBlock (accessibilityStatement cfg)]

/-- Embedding of `FileManager._create_word_document`: header, translated content,
footer (the document-wide style defaults set first do not add blocks). -/
def createWordDocument (cfg : AppConfig) (content : String)
    (metadata : List (String × Option String)) (logoAvailable : Bool)
    (dateStr : String) : List DocBlock :=
  addAccessibleDocumentHeader cfg metadata logoAvailable dateStr ++
    addAccessibleContentToDocument content ++
    addAccessibleDocumentFooter cfg

/-! ## Character-level lemmas for the filename cleaner -/

/-- A character that can occur in a cleaned filename: lowercase ASCII
letter, digit, or underscore. -/
def goodChar (c : Char) : Bool := isAsciiLower c || isAsciiDigit c || c = '_'

/-- Model of Python `str.lower` on `String`s. -/
def pyLowerStr (s : String) : String := ⟨pyLower s.data⟩

/-- Checker: the list neither starts nor ends with an underscore. -/
def noEdgeUnderscore (l : List Char) : Bool :=
  (match l.head? with
   | some c => !(c = '_' : Bool)
   | none => true) &&
  (match l.getLast? with
   | some c => !(c = '_' : Bool)
   | none => true)

theorem toNat_ofNat_small {n : Nat} (h : n ≤ 122) : (Char.ofNat n).toNat = n := by
  have hv : n < 55296 ∨ 57343 < n ∧ n < 1114112 := Or.inl (by omega)
  rw [Char.ofNat, dif_pos hv]
  simp [Char.ofNatAux, Char.toNat, UInt32.toNat, BitVec.toNat_ofNatLt]

theorem isAsciiUpper_toNat {c : Char} :
    isAsciiUpper c = true ↔ 65 ≤ c.toNat ∧ c.toNat ≤ 90 := by
  simp only [isAsciiUpper, Bool.and_eq_true, decide_eq_true_eq, Char.le_def]
  exact Iff.rfl

theorem isAsciiLower_toNat {c : Char} :
    isAsciiLower c = true ↔ 97 ≤ c.toNat ∧ c.toNat ≤ 122 := by
  simp only [isAsciiLower, Bool.and_eq_true, decide_eq_true_eq, Char.le_def]
  exact Iff.rfl

theorem isAsciiDigit_toNat {c : Char} :
    isAsciiDigit c = true ↔ 48 ≤ c.toNat ∧ c.toNat ≤ 57 := by
  simp only [isAsciiDigit, Bool.and_eq_true, decide_eq_true_eq, Char.le_def]
  exact Iff.rfl

theorem pyLowerChar_notUpper (c : Char) : isAsciiUpper (pyLowerChar c) = false := by
  by_cases h : isAsciiUpper c = true
  · have hn := isAsciiUpper_toNat.mp h
    have h2 : (Char.ofNat (c.toNat + 32)).toNat = c.toNat + 32 := toNat_ofNat_small (by omega)
    rw [pyLowerChar, if_pos h, Bool.eq_false_iff]
    intro hu
    have := isAsciiUpper_toNat.mp hu
    omega
  · rw [pyLowerChar, if_neg h, Bool.eq_false_iff]
    exact h

theorem pyLowerChar_idem (c : Char) : pyLowerChar (pyLowerChar c) = pyLowerChar c := by
  rw [pyLowerChar, if_neg]
  rw [pyLowerChar_notUpper c]
  simp

theorem goodChar_fixed {c : Char} (h : goodChar c = true) : pyLowerChar c = c := by
  rw [pyLowerChar, if_neg]
  rw [goodChar, Bool.or_eq_true, Bool.or_eq_true] at h
  rcases h with (h | h) | h
  · have hl := isAsciiLower_toNat.mp h
    intro hu
    have := isAsciiUpper_toNat.mp hu
    omega
  · have hd := isAsciiDigit_toNat.mp h
    intro hu
    have := isAsciiUpper_toNat.mp hu
    omega
  · have hc : c = '_' := by simpa using h
    subst hc
    decide

theorem goodChar_kept {c : Char} (h : goodChar c = true) :
    (isPyWord c || isPySpace c || c = '-') = true := by
  rw [goodChar, Bool.or_eq_true, Bool.or_eq_true] at h
  rcases h with (h | h) | h
  · simp [isPyWord, isAsciiAlpha, h]
  · simp [isPyWord, h]
  · have hc : c = '_' := by simpa using h
    subst hc
    decide

theorem sepChar_not_good {c : Char} (h : isSepChar c = true) : goodChar c = false := by
  rw [isSepChar, Bool.or_eq_true, isPySpace] at h
  rcases h with h | h
  · simp only [Bool.or_eq_true, decide_eq_true_eq] at h
    rcases h with ((((h | h) | h) | h) | h) | h <;> subst h <;> decide
  · simp only [decide_eq_true_eq] at h
    subst h
    decide

theorem goodChar_not_sep {c : Char} (h : goodChar c = true) : isSepChar c = false := by
  by_cases hs : isSepChar c = true
  · rw [sepChar_not_good hs] at h
    cases h
  · exact Bool.eq_false_iff.mpr hs

theorem word_char_good {c : Char} (hw : isPyWord c = true)
    (hu : isAsciiUpper c = false) : goodChar c = true := by
  rw [isPyWord, Bool.or_eq_true, Bool.or_eq_true, isAsciiAlpha, Bool.or_eq_true] at hw
  rcases hw with ((h | h) | h) | h
  · rw [h] at hu
    cases hu
  · simp [goodChar, h]
  · simp [goodChar, h]
  · simp [goodChar, h]

/-! ## Membership and fixpoint lemmas for the cleaning pipeline -/

theorem mem_pyLower_notUpper {c : Char} {s : List Char} (h : c ∈ pyLower s) :
    isAsciiUpper c = false := by
  rw [pyLower, List.mem_map] at h
  obtain ⟨x, _, hx⟩ := h
  rw [← hx]
  exact pyLowerChar_notUpper x

theorem mem_collapseSepsAux {c : Char} :
    ∀ (b : Bool) (s : List Char), c ∈ collapseSepsAux b s →
      c = '_' ∨ (c ∈ s ∧ isSepChar c = false)
  | _, [], h => by cases h
  | b, x :: t, h => by
    by_cases hx : isSepChar x = true
    · cases b with
      | true =>
        rw [collapseSepsAux, if_pos hx, if_pos rfl] at h
        rcases mem_collapseSepsAux true t h with hq | ⟨hm, hns⟩
        · exact Or.inl hq
        · exact Or.inr ⟨List.mem_cons_of_mem x hm, hns⟩
      | false =>
        rw [collapseSepsAux, if_pos hx, if_neg Bool.false_ne_true] at h
        simp only [List.mem_cons] at h
        rcases h with h | h
        · exact Or.inl h
        · rcases mem_collapseSepsAux true t h with hq | ⟨hm, hns⟩
          · exact Or.inl hq
          · exact Or.inr ⟨List.mem_cons_of_mem x hm, hns⟩
    · rw [collapseSepsAux, if_neg hx] at h
      simp only [List.mem_cons] at h
      rcases h with h | h
      · subst h
        exact Or.inr ⟨List.mem_cons_self c t, Bool.eq_false_iff.mpr hx⟩
      · rcases mem_collapseSepsAux false t h with hq | ⟨hm, hns⟩
        · exact Or.inl hq
        · exact Or.inr ⟨List.mem_cons_of_mem x hm, hns⟩

theorem mem_lstripP {p : Char → Bool} {c : Char} {s : List Char}
    (h : c ∈ lstripP p s) : c ∈ s :=
  (List.dropWhile_suffix p).subset h

theorem mem_rstripP {p : Char → Bool} {c : Char} {s : List Char}
    (h : c ∈ rstripP p s) : c ∈ s := by
  rw [rstripP, List.mem_reverse] at h
  exact List.mem_reverse.mp ((List.dropWhile_suffix p).subset h)

theorem mem_stripP {p : Char → Bool} {c : Char} {s : List Char}
    (h : c ∈ stripP p s) : c ∈ s :=
  mem_lstripP (mem_rstripP h)

theorem mem_cleanStem_good {c : Char} {s : List Char} (h : c ∈ cleanStem s) :
    goodChar c = true := by
  have h1 : c ∈ collapseSeps (removeSpecial (pyLower s)) := mem_stripP h
  rcases mem_collapseSepsAux false _ h1 with h2 | ⟨h2, hns⟩
  · subst h2
    decide
  · rw [removeSpecial, List.mem_filter] at h2
    obtain ⟨hmem, hkept⟩ := h2
    have hu : isAsciiUpper c = false := mem_pyLower_notUpper hmem
    rw [Bool.or_eq_true, Bool.or_eq_true] at hkept
    rcases hkept with (hw | hsp) | hd
    · exact word_char_good hw hu
    · rw [isSepChar, hsp] at hns
      cases hns
    · rw [isSepChar, isPySpace] at hns
      rw [hd] at hns
      simp at hns

theorem mem_cleanFilenameL_good {c : Char} {s : List Char}
    (h : c ∈ cleanFilenameL s) : goodChar c = true := by
  rw [cleanFilenameL] at h
  by_cases h50 : 50 < (cleanStem s).length
  · rw [if_pos h50] at h
    exact mem_cleanStem_good (List.take_subset 50 _ (mem_rstripP h))
  · rw [if_neg h50] at h
    exact mem_cleanStem_good h

theorem pyLower_fixed {s : List Char} (h : ∀ c ∈ s, goodChar c = true) :
    pyLower s = s := by
  rw [pyLower]
  rw [List.map_congr_left fun a ha => goodChar_fixed (h a ha)]
  exact List.map_id s

theorem removeSpecial_fixed {s : List Char} (h : ∀ c ∈ s, goodChar c = true) :
    removeSpecial s = s :=
  List.filter_eq_self.mpr fun a ha => goodChar_kept (h a ha)

theorem collapseSepsAux_fixed {s : List Char} (h : ∀ c ∈ s, isSepChar c = false) :
    ∀ b, collapseSepsAux b s = s := by
  induction s with
  | nil => intro b; rfl
  | cons x t ih =>
    intro b
    rw [collapseSepsAux, if_neg]
    · rw [ih fun c hc => h c (List.mem_cons_of_mem x hc)]
    · rw [h x (List.mem_cons_self x t)]
      simp

theorem dropWhile_eq_self_of_head {p : Char → Bool} {l : List Char}
    (h : ∀ c, l.head? = some c → p c = false) : l.dropWhile p = l := by
  cases l with
  | nil => rfl
  | cons x t =>
    rw [List.dropWhile_cons, if_neg]
    rw [h x rfl]
    simp

theorem head?_dropWhile_not {p : Char → Bool} :
    ∀ {l : List Char} {c : Char}, (l.dropWhile p).head? = some c → p c = false := by
  intro l
  induction l with
  | nil => intro c h; cases h
  | cons x t ih =>
    intro c h
    rw [List.dropWhile_cons] at h
    by_cases hx : p x = true
    · rw [if_pos hx] at h
      exact ih h
    · rw [if_neg hx] at h
      cases h
      exact Bool.eq_false_iff.mpr hx

theorem rstripP_isPref (p : Char → Bool) (s : List Char) : rstripP p s <+: s := by
  rw [rstripP, ← List.reverse_suffix, List.reverse_reverse]
  exact List.dropWhile_suffix p

theorem rstripP_fixed {p : Char → Bool} {s : List Char}
    (h : ∀ c, s.getLast? = some c → p c = false) : rstripP p s = s := by
  rw [rstripP, dropWhile_eq_self_of_head, List.reverse_reverse]
  intro c hc
  rw [List.head?_reverse] at hc
  exact h c hc

theorem getLast?_rstripP_not {p : Char → Bool} {s : List Char} {c : Char}
    (h : (rstripP p s).getLast? = some c) : p c = false := by
  rw [rstripP, List.getLast?_reverse] at h
  exact head?_dropWhile_not h

theorem head?_of_isPref {l₁ l₂ : List Char} (h : l₁ <+: l₂) (hne : l₁ ≠ []) :
    l₂.head? = l₁.head? := by
  obtain ⟨t, rfl⟩ := h
  cases l₁ with
  | nil => exact absurd rfl hne
  | cons x r => rfl

theorem stripP_getLast {p : Char → Bool} {s : List Char} {c : Char}
    (h : (stripP p s).getLast? = some c) : p c = false :=
  getLast?_rstripP_not h

theorem stripP_head {p : Char → Bool} {s : List Char} {c : Char}
    (h : (stripP p s).head? = some c) : p c = false := by
  rw [stripP] at h
  have hne : rstripP p (lstripP p s) ≠ [] := by
    intro he
    rw [he] at h
    cases h
  rw [← head?_of_isPref (rstripP_isPref p (lstripP p s)) hne] at h
  exact head?_dropWhile_not h

theorem head?_take_pos {l : List Char} {n : Nat} (h : 0 < n) :
    (l.take n).head? = l.head? := by
  cases l with
  | nil => simp
  | cons x t =>
    cases n with
    | zero => exact absurd h (by omega)
    | succ m => rfl

theorem cleanFilenameL_length_le (s : List Char) : (cleanFilenameL s).length ≤ 50 := by
  rw [cleanFilenameL]
  by_cases h : 50 < (cleanStem s).length
  · rw [if_pos h]
    have h1 := (rstripP_isPref (· = '_') ((cleanStem s).take 50)).length_le
    have h2 := List.length_take 50 (cleanStem s)
    omega
  · rw [if_neg h]
    omega

theorem cleanFilenameL_head {s : List Char} {c : Char}
    (h : (cleanFilenameL s).head? = some c) : (c = '_' : Bool) = false := by
  rw [cleanFilenameL] at h
  by_cases h50 : 50 < (cleanStem s).length
  · rw [if_pos h50] at h
    have hne : rstripP (· = '_') ((cleanStem s).take 50) ≠ [] := by
      intro he
      rw [he] at h
      cases h
    rw [← head?_of_isPref (rstripP_isPref _ _) hne, head?_take_pos (by omega)] at h
    cases hs : (cleanStem s).head? with
    | none => rw [hs] at h; cases h
    | some d =>
      rw [hs] at h
      cases h
      exact stripP_head hs
  · rw [if_neg h50] at h
    exact stripP_head h

theorem cleanFilenameL_getLast {s : List Char} {c : Char}
    (h : (cleanFilenameL s).getLast? = some c) : (c = '_' : Bool) = false := by
  rw [cleanFilenameL] at h
  by_cases h50 : 50 < (cleanStem s).length
  · rw [if_pos h50] at h
    exact getLast?_rstripP_not h
  · rw [if_neg h50] at h
    exact stripP_getLast h

theorem cleanStem_fixed_of_good {R : List Char}
    (hgood : ∀ c ∈ R, goodChar c = true)
    (hhead : ∀ c, R.head? = some c → (c = '_' : Bool) = false)
    (hlast : ∀ c, R.getLast? = some c → (c = '_' : Bool) = false) :
    cleanStem R = R := by
  rw [cleanStem, pyLower_fixed hgood, removeSpecial_fixed hgood,
    collapseSeps, collapseSepsAux_fixed (fun c hc => goodChar_not_sep (hgood c hc)) false,
    stripP, lstripP, dropWhile_eq_self_of_head hhead, rstripP_fixed hlast]

theorem cleanFilenameL_idem (s : List Char) :
    cleanFilenameL (cleanFilenameL s) = cleanFilenameL s := by
  have hstem : cleanStem (cleanFilenameL s) = cleanFilenameL s :=
    cleanStem_fixed_of_good (fun c hc => mem_cleanFilenameL_good hc)
      (fun c hc => cleanFilenameL_head hc) (fun c hc => cleanFilenameL_getLast hc)
  rw [cleanFilenameL, hstem, if_neg]
  have := cleanFilenameL_length_le s
  omega

theorem pyLower_idem (s : List Char) : pyLower (pyLower s) = pyLower s := by
  rw [pyLower, pyLower, List.map_map]
  exact List.map_congr_left fun a _ => pyLowerChar_idem a

theorem cleanFilenameL_pyLower (s : List Char) :
    cleanFilenameL (pyLower s) = cleanFilenameL s := by
  rw [cleanFilenameL, cleanFilenameL, cleanStem, cleanStem, pyLower_idem]

theorem pyLowerChar_ne_underscore {c : Char} (h : ¬c = '_') : ¬pyLowerChar c = '_' := by
  rw [pyLowerChar]
  by_cases hu : isAsciiUpper c = true
  · rw [if_pos hu]
    have hn := isAsciiUpper_toNat.mp hu
    intro he
    have : (Char.ofNat (c.toNat + 32)).toNat = c.toNat + 32 := toNat_ofNat_small (by omega)
    rw [he] at this
    have h95 : ('_').toNat = 95 := by decide
    omega
  · rw [if_neg hu]
    exact h

theorem count_pyLower_underscore (s : List Char) :
    (pyLower s).count '_' = s.count '_' := by
  induction s with
  | nil => rfl
  | cons x t ih =>
    rw [pyLower, List.map_cons, List.count_cons, List.count_cons, ← pyLower, ih]
    by_cases hx : x = '_'
    · subst hx
      rfl
    · rw [if_neg, if_neg]
      · simp [hx]
      · simp [pyLowerChar_ne_underscore hx]

theorem count_removeSpecial_underscore (s : List Char) :
    (removeSpecial s).count '_' = s.count '_' :=
  List.count_filter (by decide)

theorem stripP_underscore_nil {l : List Char} (h : ∀ c ∈ l, c = '_') :
    stripP (· = '_') l = [] := by
  rw [stripP, lstripP, List.dropWhile_eq_nil_iff.mpr]
  · rfl
  · intro x hx
    rw [h x hx]
    decide

theorem cleanStem_no_alnum_nil {s : List Char}
    (h : ∀ c ∈ s, isAsciiAlpha c = false ∧ isAsciiDigit c = false) :
    cleanStem s = [] := by
  rw [cleanStem]
  apply stripP_underscore_nil
  intro c hc
  rcases mem_collapseSepsAux false _ hc with h1 | ⟨h1, hns⟩
  · exact h1
  · rw [removeSpecial, List.mem_filter] at h1
    obtain ⟨hmem, hkept⟩ := h1
    rw [pyLower, List.mem_map] at hmem
    obtain ⟨x, hx, hxe⟩ := hmem
    have hxa := (h x hx).1
    have hxu : isAsciiUpper x = false := by
      rw [isAsciiAlpha] at hxa
      exact (Bool.or_eq_false_iff.mp hxa).1
    have hcx : c = x := by
      rw [← hxe, pyLowerChar, if_neg]
      rw [hxu]
      simp
    subst hcx
    rw [Bool.or_eq_true, Bool.or_eq_true] at hkept
    rcases hkept with (hw | hsp) | hd
    · rw [isPyWord, Bool.or_eq_true, Bool.or_eq_true] at hw
      rcases hw with (ha | hdg) | hu
      · rw [(h c hx).1] at ha
        cases ha
      · rw [(h c hx).2] at hdg
        cases hdg
      · exact of_decide_eq_true hu
    · rw [isSepChar, hsp] at hns
      cases hns
    · rw [isSepChar, isPySpace, hd] at hns
      simp at hns

/-- Conversion of `goodChar` to the claim vocabulary of C5. -/
theorem goodChar_widen {c : Char} (h : goodChar c = true) :
    (isAsciiAlpha c || isAsciiDigit c || c = ' ' || c = '-' || c = '_') = true := by
  rw [goodChar, Bool.or_eq_true, Bool.or_eq_true] at h
  rcases h with (h | h) | h
  · simp [isAsciiAlpha, h]
  · simp [h]
  · simp [h]

/-! ## Claim C5 -/

/-- C5, counterexample: the claim says `_clean_filename` removes every
character that is not a letter, digit, space, or hyphen; but cleaning
`"a_b"` keeps the underscore, which belongs to none of those classes
(the regex class `\w` it actually uses also matches `_`). -/
theorem claim_C5_counterexample :
    '_' ∈ (cleanFilename "a_b").data ∧ '_' ∈ "a_b".data ∧
      (isAsciiAlpha '_' || isAsciiDigit '_' || ('_' = ' ' : Bool) ||
        ('_' = '-' : Bool)) = false := by
  decide

/-- C5, amended: for every title string, `_clean_filename` is idempotent,
is insensitive to character case (cleaning the lowercased string gives
the same result), and removes every character that is not a letter,
digit, underscore, space, or hyphen. -/
theorem claim_C5_amended (s : String) :
    cleanFilename (cleanFilename s) = cleanFilename s ∧
    cleanFilename (pyLowerStr s) = cleanFilename s ∧
    (cleanFilename s).data.all
      (fun c => isAsciiAlpha c || isAsciiDigit c || (c = ' ' : Bool) ||
        (c = '-' : Bool) || (c = '_' : Bool)) = true := by
  refine ⟨?_, ?_, ?_⟩
  · show (⟨cleanFilenameL (cleanFilenameL s.data)⟩ : String) = ⟨cleanFilenameL s.data⟩
    rw [cleanFilenameL_idem]
  · show (⟨cleanFilenameL (pyLower s.data)⟩ : String) = ⟨cleanFilenameL s.data⟩
    rw [cleanFilenameL_pyLower]
  · rw [List.all_eq_true]
    intro c hc
    exact goodChar_widen (mem_cleanFilenameL_good hc)

/-! ## Claim C6 -/

/-- C6: a title whose cleaned stem exceeds 50 characters is truncated to
exactly 50 characters and then stripped of trailing underscores; an
empty or symbol-only title (no letters, no digits) cleans to the empty
string (and, the cleaner being a total function, never raises). -/
theorem claim_C6 (s : String) :
    (50 < (cleanStem s.data).length →
      cleanFilename s = ⟨rstripP (· = '_') ((cleanStem s.data).take 50)⟩ ∧
      ((cleanStem s.data).take 50).length = 50) ∧
    (s.data.all (fun c => !(isAsciiAlpha c || isAsciiDigit c)) = true →
      cleanFilename s = "") := by
  constructor
  · intro h50
    constructor
    · show (⟨cleanFilenameL s.data⟩ : String) = _
      rw [cleanFilenameL, if_pos h50]
    · rw [List.length_take]
      omega
  · intro hsym
    show (⟨cleanFilenameL s.data⟩ : String) = ""
    have hstem : cleanStem s.data = [] := by
      apply cleanStem_no_alnum_nil
      intro c hc
      have := List.all_eq_true.mp hsym c hc
      rw [Bool.not_eq_eq_eq_not, Bool.not_true, Bool.or_eq_false_iff] at this
      exact this
    rw [cleanFilenameL, hstem]
    rfl

/-- C6, witness: a 60-character title truncates to 50 characters, and a
symbol-only title cleans to the empty string. -/
theorem claim_C6_witness :
    cleanFilename ⟨List.replicate 60 'a'⟩ = ⟨List.replicate 50 'a'⟩ ∧
    cleanFilename "!!!" = "" := by
  constructor
  · exact ((claim_C6 ⟨List.replicate 60 'a'⟩).1 (by decide)).1.trans (by decide)
  · exact (claim_C6 "!!!").2 (by decide)

/-! ## Claim C10 -/

/-- C10: for every input, `_clean_filename` returns at most 50
characters, all of them lowercase letters, digits or underscores, with
no leading or trailing underscore; and underscores of the input survive
the lowercasing and character-removal stages (they are preserved, not
stripped). -/
theorem claim_C10 (s : String) :
    (cleanFilename s).length ≤ 50 ∧
    (cleanFilename s).data.all goodChar = true ∧
    noEdgeUnderscore (cleanFilename s).data = true ∧
    (removeSpecial (pyLower s.data)).count '_' = s.data.count '_' := by
  refine ⟨?_, ?_, ?_, ?_⟩
  · show (cleanFilenameL s.data).length ≤ 50
    exact cleanFilenameL_length_le s.data
  · rw [List.all_eq_true]
    intro c hc
    exact mem_cleanFilenameL_good hc
  · rw [noEdgeUnderscore, Bool.and_eq_true]
    constructor
    · cases hh : (cleanFilename s).data.head? with
      | none => rfl
      | some c =>
        show (!(c = '_' : Bool)) = true
        rw [cleanFilenameL_head hh]
        rfl
    · cases hh : (cleanFilename s).data.getLast? with
      | none => rfl
      | some c =>
        show (!(c = '_' : Bool)) = true
        rw [cleanFilenameL_getLast hh]
        rfl
  · rw [count_removeSpecial_underscore, count_pyLower_underscore]

/-! ## Claim C7 -/

/-- C7: with thinking-mode enabled, the prompt builder appends exactly
one of three fixed instruction blocks, chosen deterministically by the
detail level (`"detailed"` and `"expert"` select their blocks, every
other value falls back to the basic block), and the three blocks are
pairwise distinct. -/
theorem claim_C7 (topic level : String) :
    buildPrompt topic true level = basePrompt topic ++ thinkingInstruction level ∧
    thinkingInstruction level =
      (if level = "detailed" then thinkingDetailed
       else if level = "expert" then thinkingExpert
       else thinkingBasic) ∧
    (thinkingInstruction level = thinkingDetailed ∨
     thinkingInstruction level = thinkingExpert ∨
     thinkingInstruction level = thinkingBasic) ∧
    ((thinkingDetailed == thinkingExpert) = false ∧
     (thinkingDetailed == thinkingBasic) = false ∧
     (thinkingExpert == thinkingBasic) = false) := by
  refine ⟨rfl, rfl, ?_, by decide⟩
  rw [thinkingInstruction]
  by_cases h1 : level = "detailed"
  · rw [if_pos h1]
    exact Or.inl rfl
  · rw [if_neg h1]
    by_cases h2 : level = "expert"
    · rw [if_pos h2]
      exact Or.inr (Or.inl rfl)
    · rw [if_neg h2]
      exact Or.inr (Or.inr rfl)

/-! ## Claim C1 -/

/-- C1, counterexample: the topic is not interpolated verbatim into the
title line of the prompt; for the topic `"VoiceOver basics"` the title
line holds the title-cased form `Voiceover Basics`, so the verbatim
topic does not occur in it. -/
theorem claim_C1_counterexample :
    containsSubstr (promptTitleLine "VoiceOver basics") "VoiceOver basics" = false ∧
    promptTitleLine "VoiceOver basics" =
      "        # Voiceover Basics - Learning Guide" := by
  decide

theorem basePrompt_decomp (topic : String) :
    ∃ a b c d e f g,
      basePrompt topic =
        a ++ hdrLearningObjectives ++ b ++ hdrPrerequisites ++ c ++ hdrStepByStep ++ d ++
          hdrPracticeActivities ++ e ++ hdrTroubleshooting ++ f ++ hdrNextSteps ++ g := by
  refine ⟨promptRequestIntro ++ topic ++
      "\n        \n        Structure your guide with these sections:\n        \n" ++
      promptTitleLine topic ++ "\n" ++ "        \n        ",
    "\n        What the learner will accomplish by completing this guide\n        \n        ",
    "\n        What they should know or have set up before starting\n        \n        ",
    "\n        Detailed, numbered steps with clear explanations\n        Include specific gesture commands, keyboard shortcuts, or menu paths\n        \n        ",
    "\n        Hands-on exercises to reinforce the learning\n        \n        ",
    "\n        Common issues and how to resolve them\n        \n        ",
    "\n        What to learn next to build on this foundation\n        \n        Guidelines:\n        - Use encouraging, supportive language throughout\n        - Explain WHY steps are important, not just HOW\n        - Include specific examples and scenarios\n        - Consider the emotional journey of learning new technology\n        - Use active voice and clear instructions\n        ",
    ?_⟩
  simp only [basePrompt, promptSections, String.append_assoc]

/-- C1, amended: for every topic and configuration, the prompt built by
both generation paths contains the six section headers in their fixed
order; the topic is interpolated verbatim into the request line
(`Create a comprehensive learning guide for: {topic}`), while the title
line receives the title-cased form of the topic (`topic.title()`), not
the verbatim topic. -/
theorem claim_C1_amended (topic : String) (think : Bool) (level : String) :
    (∃ a b c d e f g,
      buildPrompt topic think level =
        a ++ hdrLearningObjectives ++ b ++ hdrPrerequisites ++ c ++ hdrStepByStep ++ d ++
          hdrPracticeActivities ++ e ++ hdrTroubleshooting ++ f ++ hdrNextSteps ++ g) ∧
    (∃ rest, buildPrompt topic think level = promptRequestIntro ++ (topic ++ rest)) ∧
    (∃ pre post, buildPrompt topic think level = pre ++ (promptTitleLine topic ++ post)) ∧
    promptTitleLine topic = "        # " ++ pyTitle topic ++ " - Learning Guide" := by
  obtain ⟨a, b, c, d, e, f, g, hbase⟩ := basePrompt_decomp topic
  refine ⟨?_, ?_, ?_, by rw [promptTitleLine, String.append_assoc]⟩
  · cases think with
    | false =>
      exact ⟨a, b, c, d, e, f, g, hbase⟩
    | true =>
      refine ⟨a, b, c, d, e, f, g ++ thinkingInstruction level, ?_⟩
      show basePrompt topic ++ thinkingInstruction level = _
      rw [hbase]
      simp only [String.append_assoc]
  · cases think with
    | false =>
      refine ⟨"\n        \n        Structure your guide with these sections:\n        \n" ++
        promptTitleLine topic ++ "\n" ++ promptSections, ?_⟩
      show basePrompt topic = _
      simp only [basePrompt, String.append_assoc]
    | true =>
      refine ⟨"\n        \n        Structure your guide with these sections:\n        \n" ++
        promptTitleLine topic ++ "\n" ++ promptSections ++ thinkingInstruction level, ?_⟩
      show basePrompt topic ++ thinkingInstruction level = _
      simp only [basePrompt, String.append_assoc]
  · cases think with
    | false =>
      refine ⟨promptRequestIntro ++ topic ++
        "\n        \n        Structure your guide with these sections:\n        \n",
        "\n" ++ promptSections, ?_⟩
      show basePrompt topic = _
      simp only [basePrompt, String.append_assoc]
    | true =>
      refine ⟨promptRequestIntro ++ topic ++
        "\n        \n        Structure your guide with these sections:\n        \n",
        "\n" ++ promptSections ++ thinkingInstruction level, ?_⟩
      show basePrompt topic ++ thinkingInstruction level = _
      simp only [basePrompt, String.append_assoc]

/-! ## Lemmas about line splitting and joining -/

theorem splitLinesL_ne_nil : ∀ s : List Char, splitLinesL s ≠ []
  | [], h => by cases h
  | c :: t, h => by
    rw [splitLinesL] at h
    by_cases hc : c = '\n'
    · rw [if_pos hc] at h
      cases h
    · rw [if_neg hc] at h
      revert h
      cases hs : splitLinesL t with
      | nil => intro h; cases h
      | cons l ls => intro h; cases h

theorem splitLinesL_append_cons {a : List Char} (b : List Char) (h : '\n' ∉ a) :
    splitLinesL (a ++ '\n' :: b) = a :: splitLinesL b := by
  induction a with
  | nil =>
    rw [List.nil_append, splitLinesL, if_pos rfl]
  | cons x t ih =>
    have hx : ¬x = '\n' := fun he => h (he ▸ List.mem_cons_self x t)
    have ht : '\n' ∉ t := fun hm => h (List.mem_cons_of_mem x hm)
    rw [List.cons_append, splitLinesL, if_neg hx, ih ht]

theorem joinLinesL_splitLinesL : ∀ s : List Char, joinLinesL (splitLinesL s) = s
  | [] => rfl
  | c :: t => by
    by_cases hc : c = '\n'
    · subst hc
      rw [splitLinesL, if_pos rfl]
      cases hs : splitLinesL t with
      | nil => exact absurd hs (splitLinesL_ne_nil t)
      | cons l ls =>
        show [] ++ '\n' :: joinLinesL (l :: ls) = '\n' :: t
        have := joinLinesL_splitLinesL t
        rw [hs] at this
        rw [List.nil_append, this]
    · rw [splitLinesL, if_neg hc]
      cases hs : splitLinesL t with
      | nil => exact absurd hs (splitLinesL_ne_nil t)
      | cons l ls =>
        have := joinLinesL_splitLinesL t
        rw [hs] at this
        cases ls with
        | nil =>
          show c :: l = c :: t
          rw [show l = t from this]
        | cons l2 ls2 =>
          show (c :: l) ++ '\n' :: joinLinesL (l2 :: ls2) = c :: t
          rw [List.cons_append]
          rw [show l ++ '\n' :: joinLinesL (l2 :: ls2) = t from this]

theorem splitLinesL_joinLinesL_append {ls : List (List Char)} (r : List Char)
    (hne : ls ≠ []) (h : ∀ l ∈ ls, '\n' ∉ l) :
    splitLinesL (joinLinesL ls ++ '\n' :: r) = ls ++ splitLinesL r := by
  induction ls with
  | nil => exact absurd rfl hne
  | cons l ls ih =>
    cases ls with
    | nil =>
      rw [joinLinesL, List.singleton_append,
        splitLinesL_append_cons r (h l (List.mem_cons_self l []))]
    | cons l2 ls2 =>
      show splitLinesL ((l ++ '\n' :: joinLinesL (l2 :: ls2)) ++ '\n' :: r) = _
      rw [List.cons_append, List.append_assoc, List.cons_append,
        splitLinesL_append_cons _ (h l (List.mem_cons_self l _)),
        ih (by simp) fun x hx => h x (List.mem_cons_of_mem l hx)]

theorem joinNL_data : ∀ ls : List String, (joinNL ls).data = joinLinesL (ls.map String.data)
  | [] => rfl
  | [l] => rfl
  | l :: l2 :: ls => by
    show (l ++ "\n" ++ joinNL (l2 :: ls)).data =
      l.data ++ '\n' :: joinLinesL ((l2 :: ls).map String.data)
    rw [String.data_append, String.data_append, joinNL_data (l2 :: ls),
      List.append_assoc]
    rfl

theorem takeWhile_append_of_all {α : Type} (p : α → Bool) {xs : List α} (ys : List α)
    (h : ∀ x ∈ xs, p x = true) : (xs ++ ys).takeWhile p = xs ++ ys.takeWhile p := by
  induction xs with
  | nil => rfl
  | cons x t ih =>
    rw [List.cons_append, List.takeWhile_cons, if_pos (h x (List.mem_cons_self x t)),
      List.cons_append, ih fun y hy => h y (List.mem_cons_of_mem x hy)]

theorem dropWhile_append_of_all {α : Type} (p : α → Bool) {xs : List α} (ys : List α)
    (h : ∀ x ∈ xs, p x = true) : (xs ++ ys).dropWhile p = ys.dropWhile p := by
  induction xs with
  | nil => rfl
  | cons x t ih =>
    rw [List.cons_append, List.dropWhile_cons, if_pos (h x (List.mem_cons_self x t)),
      ih fun y hy => h y (List.mem_cons_of_mem x hy)]

theorem entryLine_ne_dashes (k v : String) : ((k ++ ": " ++ v) != "---") = true := by
  rw [bne_iff_ne]
  intro he
  have hd : (k ++ ": " ++ v).data = "---".data := by rw [he]
  rw [String.data_append, String.data_append] at hd
  have hc : ':' ∈ (k.data ++ ": ".data) ++ v.data := by
    apply List.mem_append_left
    apply List.mem_append_right
    decide
  rw [hd] at hc
  exact absurd hc (by decide)

theorem mem_metadataEntryLines {md : List (String × Option String)} {e : String}
    (h : e ∈ metadataEntryLines md) : ∃ k v, (k, some v) ∈ md ∧ e = k ++ ": " ++ v := by
  rw [metadataEntryLines, List.mem_filterMap] at h
  obtain ⟨⟨k, ov⟩, hmem, hmap⟩ := h
  cases ov with
  | none => cases hmap
  | some v =>
    refine ⟨k, v, hmem, ?_⟩
    simpa using hmap.symm

theorem map_mk_map_data (L : List String) :
    (L.map String.data).map (fun l => (⟨l⟩ : String)) = L := by
  rw [List.map_map]
  exact (List.map_congr_left fun a _ => rfl).trans (List.map_id L)

theorem map_data_map_mk (L : List (List Char)) :
    (L.map fun l => (⟨l⟩ : String)).map String.data = L := by
  rw [List.map_map]
  exact (List.map_congr_left fun a _ => rfl).trans (List.map_id L)

/-- The round trip between `save_markdown_guide` and the spec file
format: when no rendered key or value contains a newline, parsing the
saved file recovers exactly the non-null entry lines, in order, and the
content unchanged. -/
theorem parseSavedGuide_saveMarkdownGuide
    (md : List (String × Option String)) (content : String)
    (h : ∀ kv ∈ md, ∀ v, kv.2 = some v → '\n' ∉ kv.1.data ∧ '\n' ∉ v.data) :
    parseSavedGuide (saveMarkdownGuide content md) =
      some (metadataEntryLines md, content) := by
  have hEnl : ∀ l ∈ (["---"] ++ metadataEntryLines md ++ ["---"]).map String.data,
      '\n' ∉ l := by
    intro l hl
    simp only [List.map_append, List.mem_append] at hl
    rcases hl with (hl | hl) | hl
    · simp only [List.map_cons, List.map_nil, List.mem_singleton] at hl
      subst hl
      decide
    · rw [List.mem_map] at hl
      obtain ⟨e, he, rfl⟩ := hl
      obtain ⟨k, v, hmem, rfl⟩ := mem_metadataEntryLines he
      obtain ⟨hk, hv⟩ := h (k, some v) hmem v rfl
      rw [String.data_append, String.data_append]
      intro hn
      rcases List.mem_append.mp hn with hn | hn
      · rcases List.mem_append.mp hn with hn | hn
        · exact hk hn
        · exact absurd hn (by decide)
      · exact hv hn
    · simp only [List.map_cons, List.map_nil, List.mem_singleton] at hl
      subst hl
      decide
  have hEne : ∀ e ∈ metadataEntryLines md, (e != "---") = true := by
    intro e he
    obtain ⟨k, v, _, rfl⟩ := mem_metadataEntryLines he
    exact entryLine_ne_dashes k v
  have hdata : (saveMarkdownGuide content md).data =
      joinLinesL ((["---"] ++ metadataEntryLines md ++ ["---"]).map String.data) ++
        '\n' :: ('\n' :: content.data) := by
    show (createMetadataHeader md ++ "\n\n" ++ content).data = _
    rw [String.data_append, String.data_append, createMetadataHeader, joinNL_data,
      List.append_assoc]
    rfl
  have hsplit : splitLinesL (saveMarkdownGuide content md).data =
      (["---"] ++ metadataEntryLines md ++ ["---"]).map String.data ++
        [] :: splitLinesL content.data := by
    rw [hdata, splitLinesL_joinLinesL_append _ (by simp) hEnl]
    congr 1
  have hS : splitLinesS (saveMarkdownGuide content md) =
      "---" :: (metadataEntryLines md ++ "---" :: "" ::
        (splitLinesL content.data).map (fun l => (⟨l⟩ : String))) := by
    rw [splitLinesS, hsplit, List.map_append, List.map_cons]
    rw [List.map_append, List.map_append, map_mk_map_data, map_mk_map_data]
    simp [List.append_assoc]
  have hjc : joinNL ((splitLinesL content.data).map (fun l => (⟨l⟩ : String))) = content := by
    apply String.ext
    rw [joinNL_data, map_data_map_mk, joinLinesL_splitLinesL]
  rw [parseSavedGuide, hS]
  simp only [if_pos rfl]
  rw [dropWhile_append_of_all _ _ hEne, List.dropWhile_cons]
  simp only [bne_self_eq_false, Bool.false_eq_true, if_false]
  rw [takeWhile_append_of_all _ _ hEne, List.takeWhile_cons]
  simp only [bne_self_eq_false, Bool.false_eq_true, if_false, List.append_nil]
  rw [hjc]
  simp

/-! ## Claim C2 -/

/-- C2, counterexample: for a metadata value containing a newline, the
header block read back does not consist of the entries of the mapping:
the value `"a\nb"` is written across two physical lines, so the parsed
header lines differ from the rendered entry list. -/
theorem claim_C2_counterexample :
    (parseSavedGuide (saveMarkdownGuide "c" [("k", some "a\nb")]) ==
      some (metadataEntryLines [("k", some "a\nb")], "c")) = false := by
  decide

/-- C2, amended: for every metadata mapping whose keys and rendered
values contain no newline, and every content string, saving the
Markdown guide and reading it back yields a `---`-delimited header
whose `key: value` lines are exactly the non-null entries in order,
followed by one blank line and the unmodified content. -/
theorem claim_C2_amended (md : List (String × Option String)) (content : String)
    (h : md.all (fun kv =>
      match kv.2 with
      | none => true
      | some v => !(kv.1.data.any fun c => c = '\n') &&
          !(v.data.any fun c => c = '\n')) = true) :
    parseSavedGuide (saveMarkdownGuide content md) =
      some (metadataEntryLines md, content) := by
  apply parseSavedGuide_saveMarkdownGuide
  intro kv hkv v hv
  have hh := List.all_eq_true.mp h kv hkv
  rw [hv, Bool.and_eq_true, Bool.not_eq_true', Bool.not_eq_true'] at hh
  constructor
  · intro hm
    have := List.any_eq_false.mp hh.1 '\n' hm
    simp at this
  · intro hm
    have := List.any_eq_false.mp hh.2 '\n' hm
    simp at this

/-- C2, witness: a concrete mapping with one null entry and a content
string containing blank lines round-trips as claimed. -/
theorem claim_C2_witness :
    parseSavedGuide (saveMarkdownGuide "# Guide\n\nBody text"
      [("topic", some "VoiceOver basics"), ("client_name", none)]) =
      some (["topic: VoiceOver basics"], "# Guide\n\nBody text") := by
  have h := claim_C2_amended
    [("topic", some "VoiceOver basics"), ("client_name", none)]
    "# Guide\n\nBody text" (by decide)
  exact h.trans (by decide)

/-! ## Claim C3 -/

/-- C3, counterexample: the flow for topic `"VoiceOver basics"` does not
produce `voiceover_basics_learning_guide_<timestamp>.md`: the title
already ends in `- Learning Guide` and `generate_filename` appends
`_learning_guide_` again. -/
theorem claim_C3_counterexample :
    ((cliTopicGuideMarkdown "VoiceOver basics" "hello" "2024-06-08T14:30:22"
        "20240608_143022").1 ==
      "voiceover_basics_learning_guide_20240608_143022.md") = false := by
  decide

/-- C3, amended: for topic `"VoiceOver basics"` with markdown format,
the flow names the file
`voiceover_basics_learning_guide_learning_guide_<timestamp>.md`, and
the saved file parses into a `---`-delimited header that contains the
lines `topic: VoiceOver basics` and `type: Learning Guide`, followed by
a blank line and the unmodified content. -/
theorem claim_C3_amended (content generatedIso timestamp : String)
    (h : '\n' ∉ generatedIso.data) :
    (cliTopicGuideMarkdown "VoiceOver basics" content generatedIso timestamp).1 =
      "voiceover_basics_learning_guide_learning_guide_" ++ timestamp ++ ".md" ∧
    parseSavedGuide
        (cliTopicGuideMarkdown "VoiceOver basics" content generatedIso timestamp).2 =
      some (["type: Learning Guide", "title: Voiceover Basics - Learning Guide",
             "topic: VoiceOver basics", "generated: " ++ generatedIso], content) ∧
    "topic: VoiceOver basics" ∈
      ["type: Learning Guide", "title: Voiceover Basics - Learning Guide",
       "topic: VoiceOver basics", "generated: " ++ generatedIso] ∧
    "type: Learning Guide" ∈
      ["type: Learning Guide", "title: Voiceover Basics - Learning Guide",
       "topic: VoiceOver basics", "generated: " ++ generatedIso] := by
  refine ⟨?_, ?_, by simp, by simp⟩
  · show generateFilename (pyTitle "VoiceOver basics" ++ " - Learning Guide")
      "learning" "markdown" timestamp = _
    rw [generateFilename]
    rw [show cleanFilename (pyTitle "VoiceOver basics" ++ " - Learning Guide") =
      "voiceover_basics_learning_guide" from by decide]
    rw [show ((("voiceover_basics_learning_guide" ++ "_") ++ "learning") ++ "_guide_") =
      "voiceover_basics_learning_guide_learning_guide_" from by decide]
    rw [String.append_assoc,
      show (if ("markdown" : String) = "markdown" then ("md" : String) else "docx") = "md"
        from by decide,
      show (("." : String) ++ "md") = ".md" from by decide]
  · have hp := parseSavedGuide_saveMarkdownGuide
      [("type", some "Learning Guide"),
       ("title", some (pyTitle "VoiceOver basics" ++ " - Learning Guide")),
       ("topic", some "VoiceOver basics"),
       ("generated", some generatedIso),
       ("client_name", none)] content ?_
    · refine hp.trans ?_
      congr 2
    · intro kv hkv v hv
      simp only [List.mem_cons, List.not_mem_nil, or_false] at hkv
      rcases hkv with rfl | rfl | rfl | rfl | rfl
      · cases hv
        exact ⟨by decide, by decide⟩
      · cases hv
        exact ⟨by decide, by decide⟩
      · cases hv
        exact ⟨by decide, by decide⟩
      · cases hv
        exact ⟨(by decide : '\n' ∉ "generated".data), h⟩
      · cases hv

/-- C3, witness: the amended statement at concrete timestamps and
content. -/
theorem claim_C3_witness :
    (cliTopicGuideMarkdown "VoiceOver basics" "hello" "2024-06-08T14:30:22"
        "20240608_143022").1 =
      "voiceover_basics_learning_guide_learning_guide_" ++ "20240608_143022" ++ ".md" ∧
    parseSavedGuide
        (cliTopicGuideMarkdown "VoiceOver basics" "hello" "2024-06-08T14:30:22"
          "20240608_143022").2 =
      some (["type: Learning Guide", "title: Voiceover Basics - Learning Guide",
             "topic: VoiceOver basics", "generated: " ++ "2024-06-08T14:30:22"], "hello") ∧
    "topic: VoiceOver basics" ∈
      ["type: Learning Guide", "title: Voiceover Basics - Learning Guide",
       "topic: VoiceOver basics", "generated: " ++ "2024-06-08T14:30:22"] ∧
    "type: Learning Guide" ∈
      ["type: Learning Guide", "title: Voiceover Basics - Learning Guide",
       "topic: VoiceOver basics", "generated: " ++ "2024-06-08T14:30:22"] :=
  claim_C3_amended "hello" "2024-06-08T14:30:22" "20240608_143022" (by decide)

/-! ## Claim C4 -/

/-- C4: a streaming call whose transport yields no text-delta event
accumulates no content and fails with the no-content streaming error
instead of completing normally. -/
theorem claim_C4 (events : List StreamEvent)
    (h : events.all (fun e => (deltaText e).isNone) = true) :
    streamTopicGuide events =
      .error "Failed to stream guide generation: No content received from streaming API" := by
  have hnil : events.filterMap deltaText = [] :=
    List.filterMap_eq_nil_iff.mpr fun a ha =>
      Option.isNone_iff_eq_none.mp (List.all_eq_true.mp h a ha)
  rw [streamTopicGuide, hnil]
  rfl

/-- C4, witness: a stream consisting only of start/stop bookkeeping
events raises the no-content error. -/
theorem claim_C4_witness :
    streamTopicGuide
        [⟨some "message_start", none⟩, ⟨some "content_block_start", some none⟩,
         ⟨none, some (some "ignored")⟩, ⟨some "message_stop", none⟩] =
      .error "Failed to stream guide generation: No content received from streaming API" :=
  claim_C4 _ (by decide)

/-! ## Claim C9 -/

/-- C9: every configuration whose body font size lies below 18 (in
particular 16) fails validation: `meets_standards` is `False`, the
recommendations include the message citing the 18pt minimum, and the
validator only reports — it returns a flag and messages, never a
corrected configuration. -/
theorem claim_C9 (c : AppConfig) (h : c.bodyFontSize < 18) :
    (validateAccessibilitySettings c).1 = false ∧
    bodyFontTooSmallMsg c.bodyFontSize ∈ (validateAccessibilitySettings c).2 ∧
    (∃ pre post, bodyFontTooSmallMsg c.bodyFontSize = pre ++ ("18pt" ++ post)) := by
  refine ⟨?_, ?_, ?_⟩
  · rw [validateAccessibilitySettings]
    simp only [if_pos h]
    split <;> split <;> split <;> split <;> split <;> rfl
  · rw [validateAccessibilitySettings]
    simp only [if_pos h]
    split <;> split <;> split <;> split <;> split <;> split <;> simp
  · exact ⟨"❌ Body font size (" ++ toString c.bodyFontSize ++
      "pt) below large print minimum (", ")",
      by rw [bodyFontTooSmallMsg]; simp only [String.append_assoc]; rfl⟩

/-- C9, witness: the default configuration with body font size 16 fails
validation with the 18pt message. -/
theorem claim_C9_witness :
    (validateAccessibilitySettings { defaultConfig with bodyFontSize := 16 }).1 = false ∧
    bodyFontTooSmallMsg 16 ∈
      (validateAccessibilitySettings { defaultConfig with bodyFontSize := 16 }).2 ∧
    (∃ pre post, bodyFontTooSmallMsg (16 : Int) = pre ++ ("18pt" ++ post)) :=
  claim_C9 { defaultConfig with bodyFontSize := 16 } (by decide)

/-! ## Claim C8 -/

theorem translateLine_ne_logo (l : List Char) :
    translateLine l ≠ DocBlock.logoBlock := by
  unfold translateLine
  split_ifs <;> simp

/-- C8: when the configured logo file is unavailable, styled-document
generation still returns the full document (the builder is total, so it
cannot raise), the logo block is absent, and the title, organization
branding, date line, translated content, contact footer and
accessibility statement are all present. -/
theorem claim_C8 (cfg : AppConfig) (content : String)
    (metadata : List (String × Option String)) (dateStr : String) :
    ((createWordDocument cfg content metadata false dateStr).contains
      DocBlock.logoBlock) = false ∧
    createWordDocument cfg content metadata false dateStr =
      addAccessibleDocumentHeader cfg metadata false dateStr ++
        addAccessibleContentToDocument content ++ addAccessibleDocumentFooter cfg ∧
    DocBlock.titleBlock (pyGetD metadata "title" "Learning Guide") ∈
      createWordDocument cfg content metadata false dateStr ∧
    DocBlock.orgBlock cfg.organizationName ∈
      createWordDocument cfg content metadata false dateStr ∧
    DocBlock.dateBlock (dateText metadata dateStr) ∈
      createWordDocument cfg content metadata false dateStr ∧
    DocBlock.contactBlock (footerContactText cfg) ∈
      createWordDocument cfg content metadata false dateStr ∧
    DocBlock.accessibilityBlock (accessibilityStatement cfg) ∈
      createWordDocument cfg content metadata false dateStr := by
  refine ⟨?_, rfl, ?_, ?_, ?_, ?_, ?_⟩
  · have hmem : DocBlock.logoBlock ∉ createWordDocument cfg content metadata false dateStr := by
      rw [createWordDocument]
      intro hm
      rcases List.mem_append.mp hm with hm | hm
      · rcases List.mem_append.mp hm with hm | hm
        · simp [addAccessibleDocumentHeader, addLogoToHeader] at hm
        · rw [addAccessibleContentToDocument, List.mem_map] at hm
          obtain ⟨l, _, hl⟩ := hm
          exact translateLine_ne_logo _ hl
      · simp [addAccessibleDocumentFooter] at hm
    simpa using hmem
  · simp [createWordDocument, addAccessibleDocumentHeader, addLogoToHeader]
  · simp [createWordDocument, addAccessibleDocumentHeader, addLogoToHeader]
  · simp [createWordDocument, addAccessibleDocumentHeader, addLogoToHeader]
  · simp [createWordDocument, addAccessibleDocumentFooter]
  · simp [createWordDocument, addAccessibleDocumentFooter]

end MyVision
